import Mathlib

/-!
# Masters.js — the table extractor and the ingestion runner

A shallow embedding of `src/Masters.js`:

* the callback that `Master.scrapeEventData` evaluates inside the page
  (lines 26–55): plain JavaScript objects are lists of own properties in
  enumeration order, property reads fall back on `Object.prototype`;
* `Master.scrapeEventData` (lines 18–59) as a sequence of renderer steps whose
  outcomes are supplied by an oracle;
* `Master.run` (lines 79–117) as explicit state passing over the attempt
  counter, the accumulator `allData` and a log of observable events.

Header and cell texts are taken after `innerText.trim()`.
-/

namespace Master

/-! ## JavaScript values and plain objects -/

/-- A value held in, or read from, one of the objects of the page callback:
`undefined`, a string, or a member inherited from `Object.prototype`
(a built-in function, or the prototype object itself for `__proto__`). -/
inductive JSVal where
  | undefined
  | str (s : String)
  | inherited (name : String)
  deriving DecidableEq, Repr

/-- JavaScript truthiness: `undefined` and the empty string are falsy,
functions and objects are truthy. -/
def JSVal.truthy : JSVal → Bool
  | .undefined => false
  | .str s => decide (s ≠ "")
  | .inherited _ => true

/-- The operator `a || b`. -/
def JSVal.orElse (a b : JSVal) : JSVal :=
  if a.truthy then a else b

/-- The own enumerable string-keyed properties of a plain object, listed in
enumeration order (array indices ascending, then the other keys in creation
order), with values of type `α`. -/
abbrev JSObject (α : Type) := List (String × α)

/-- A canonical record, the object `mappedRow`. -/
abbrev Record := JSObject JSVal

/-- Names of the members every plain object inherits from `Object.prototype`. -/
def objectPrototypeKeys : List String :=
  ["constructor", "__defineGetter__", "__defineSetter__", "hasOwnProperty",
   "__lookupGetter__", "__lookupSetter__", "isPrototypeOf", "propertyIsEnumerable",
   "toString", "valueOf", "__proto__", "toLocaleString"]

/-- Value of a decimal digit character. -/
def digitValue (c : Char) : Option Nat :=
  if 48 ≤ c.toNat ∧ c.toNat ≤ 57 then some (c.toNat - 48) else none

/-- Reads a list of decimal digits, most significant first. -/
def readDigits : List Char → Nat → Option Nat
  | [], acc => some acc
  | c :: cs, acc =>
    match digitValue c with
    | some d => readDigits cs (10 * acc + d)
    | none => none

/-- The array index a property key denotes, if any: a canonical numeric string
(no leading zero) with value at most `2^32 - 2`. -/
def arrayIndex? (key : String) : Option Nat :=
  match key.data with
  | [] => none
  | c :: cs =>
    if c = '0' ∧ cs ≠ [] then none
    else
      match readDigits (c :: cs) 0 with
      | some n => if n < 4294967295 then some n else none
      | none => none

/-- The own property `key` of `o`, if there is one. -/
def getOwn? {α : Type} (key : String) : JSObject α → Option α
  | [] => none
  | (k, v) :: rest => if k = key then some v else getOwn? key rest

/-- The property read `o[key]`: the own property, else the member of
`Object.prototype` of that name, else `undefined`. -/
def getProp (o : JSObject JSVal) (key : String) : JSVal :=
  match getOwn? key o with
  | some v => v
  | none => if key ∈ objectPrototypeKeys then .inherited key else .undefined

/-- Overwrites the value of the existing own property `key`, keeping its place. -/
def replaceOwn {α : Type} (key : String) (v : α) : JSObject α → JSObject α
  | [] => []
  | (k, w) :: rest => if k = key then (k, v) :: rest else (k, w) :: replaceOwn key v rest

/-- Creates the own property `key`, an array index of value `i`, after the
array indices below it. -/
def insertIndexed {α : Type} (i : Nat) (key : String) (v : α) : JSObject α → JSObject α
  | [] => [(key, v)]
  | (k, w) :: rest =>
    match arrayIndex? k with
    | some j => if i < j then (key, v) :: (k, w) :: rest else (k, w) :: insertIndexed i key v rest
    | none => (key, v) :: (k, w) :: rest

/-- The own properties after the assignment `o[key] = v` on a plain object. An
own property is overwritten in place. Without an own property, `__proto__`
reaches the setter of `Object.prototype`, which creates no own property (a
string is ignored; an object or function would become the prototype, a change
that is not followed here: the statements about records below are for column
maps without a field `__proto__`, under which it cannot occur); any other key
creates an own property. -/
def setProp {α : Type} (o : JSObject α) (key : String) (v : α) : JSObject α :=
  if (getOwn? key o).isSome then replaceOwn key v o
  else if key = "__proto__" then o
  else
    match arrayIndex? key with
    | some i => insertIndexed i key v o
    | none => o ++ [(key, v)]

/-! ## The page callback of `scrapeEventData` (lines 26–55) -/

/-- The property key `headers[index]` turns into: the header text, or
`"undefined"` past the end of `headers`. -/
def headerKey (headers : List String) (index : Nat) : String :=
  match headers.get? index with
  | some h => h
  | none => "undefined"

/-- The loop `cells.forEach((cell, index) => { rowData[headers[index]] = cell; })`
from position `index` on. -/
def forEachCell (headers : List String) :
    Nat → List String → JSObject JSVal → JSObject JSVal
  | _, [], rowData => rowData
  | index, cell :: cells, rowData =>
    forEachCell headers (index + 1) cells (setProp rowData (headerKey headers index) (.str cell))

/-- The object `rowData` built for one row (lines 41–44). -/
def rowData (headers cells : List String) : JSObject JSVal :=
  forEachCell headers 0 cells []

/-- The read `config.mappings[key]` used as a property key. -/
def mappingSource (mappings : JSObject String) (key : String) : String :=
  match getOwn? key mappings with
  | some src => src
  | none => "undefined"

/-- The body of `results.map(row => ...)` (lines 48–54). -/
def mapRow (mappings : JSObject String) (eventName : String) (row : JSObject JSVal) :
    Record :=
  (mappings.map Prod.fst).foldl
    (fun mappedRow key =>
      setProp mappedRow key ((getProp row (mappingSource mappings key)).orElse (.str "N/A")))
    [("Event", .str eventName)]

/-- The callback passed to `page.evaluate`, on a table whose header texts are
`headers` and whose rows hold the cell texts `rows`. -/
def evaluateCallback (mappings : JSObject String) (eventName : String)
    (headers : List String) (rows : List (List String)) : List Record :=
  let results := rows.foldl (fun results cells => results ++ [rowData headers cells]) []
  results.map (mapRow mappings eventName)

/-! ## The registry of configurations (lines 9–15) -/

/-- A scraping configuration, as passed to `addConfig`. -/
structure Config where
  tableSelector : String
  headerSelector : String
  rowSelector : String
  cellSelector : String
  mappings : JSObject String
  deriving DecidableEq, Repr

/-- The own properties of `this.configs`. The registries considered keep
`Object.prototype` as their prototype. -/
abbrev Registry := JSObject Config

/-- The method `addConfig(name, config)`: the assignment `this.configs[name] = config`.
Under the name `__proto__` it creates no entry (it makes `config` the prototype
of the registry, which is not followed here). -/
def addConfig (configs : Registry) (name : String) (config : Config) : Registry :=
  setProp configs name config

/-- The value of `this.configs[configName]` (line 85). -/
inductive ConfigVal where
  | undefined
  | config (c : Config)
  | inherited (name : String)
  deriving DecidableEq, Repr

/-- The read `this.configs[configName]`: the registered configuration, else the
member of `Object.prototype` of that name, else `undefined`. -/
def lookupConfig (configs : Registry) (configName : String) : ConfigVal :=
  match getOwn? configName configs with
  | some c => .config c
  | none => if configName ∈ objectPrototypeKeys then .inherited configName else .undefined

/-- The value of `config.mappings` as the loop `for (const key in config.mappings)`
sees it: a value that is not a registered configuration has no such property,
and the loop over `undefined` has no iteration. -/
def ConfigVal.mappings : ConfigVal → JSObject String
  | .config c => c.mappings
  | _ => []

/-! ## `scrapeEventData` (lines 18–59) and `insertDataToDB` (lines 62–76) -/

/-- One unit of work of `run`: an element of `urlsAndConfigs`. -/
structure Target where
  url : String
  configName : String
  eventName : String
  deriving DecidableEq, Repr

/-- What the renderer does during one call of `scrapeEventData`: the first
awaited step that rejects, or the table found when every step resolves. -/
inductive PageOutcome where
  | launchFails
  | newPageFails
  | gotoFails
  | waitForSelectorFails
  | evaluateFails
  | closeFails
  | rendered (headers : List String) (rows : List (List String))
  deriving DecidableEq, Repr

/-- What the store does during `insertDataToDB`. -/
inductive StoreOutcome where
  | connectFails
  | insertManyFails
  | inserted
  deriving DecidableEq, Repr

/-- The observable steps of a run. -/
inductive Event where
  | noConfiguration (configName : String)
  | scrapeCall (target : Target)
  | sessionOpened
  | sessionClosed
  | scraped (target : Target) (data : List Record)
  | failed (target : Target)
  | wait (ms : Nat)
  | maxAttemptsReached
  | insertDataToDB (data : List Record)
  | insertMany (data : List Record)
  | clientClosed
  deriving DecidableEq, Repr

/-- The method `scrapeEventData(url, config, eventName)` under a given renderer
behaviour: the sessions it opens and closes, and the table data it returns
(`none` when it throws). The browser is closed on line 57 only, after every
earlier step has resolved. The result of the callback is returned as it is:
records of strings pass from the page unchanged. -/
def scrapeEventData (outcome : PageOutcome) (config : ConfigVal) (eventName : String) :
    List Event × Option (List Record) :=
  match outcome with
  | .launchFails => ([], none)
  | .newPageFails => ([.sessionOpened], none)
  | .gotoFails => ([.sessionOpened], none)
  | .waitForSelectorFails => ([.sessionOpened], none)
  | .evaluateFails => ([.sessionOpened], none)
  | .closeFails => ([.sessionOpened], none)
  | .rendered headers rows =>
    ([.sessionOpened, .sessionClosed],
      some (evaluateCallback config.mappings eventName headers rows))

/-- The method `insertDataToDB(data)`: `insertMany` is reached once the client
has connected, and the client is closed in the `finally` block. -/
def insertDataToDB (store : StoreOutcome) (data : List Record) : List Event :=
  match store with
  | .connectFails => [.insertDataToDB data, .clientClosed]
  | .insertManyFails => [.insertDataToDB data, .insertMany data, .clientClosed]
  | .inserted => [.insertDataToDB data, .insertMany data, .clientClosed]

/-! ## `run` (lines 79–117) -/

/-- The constant `maxAttempts` (line 80). -/
def maxAttempts : Nat := 5

/-- The delay before a retry, in milliseconds (line 106). -/
def backoffMs : Nat := 5000

/-- The variables of `run`: the counter `attempts`, the accumulator `allData`,
the number of calls of `scrapeEventData` made so far, and the log. -/
structure RunState where
  attempts : Nat
  allData : List Record
  calls : Nat
  log : List Event
  deriving DecidableEq, Repr

/-- The state on entry to the `for` loop (lines 81–82). -/
def RunState.initial : RunState :=
  { attempts := 0, allData := [], calls := 0, log := [] }

/-- The behaviour of the renderer: the outcome of the call of `scrapeEventData`
made on a target after `n` earlier calls in the run. -/
abbrev Renderer := Nat → Target → PageOutcome

/-- The loop `while (attempts < maxAttempts)` (lines 92–111) for one target, run
for at most `fuel` iterations; `none` when the fuel runs out first. -/
def retryLoop (page : Renderer) (target : Target) (config : ConfigVal) :
    Nat → RunState → Option RunState
  | fuel, st =>
    if st.attempts < maxAttempts then
      match fuel with
      | 0 => none
      | fuel + 1 =>
        let r := scrapeEventData (page st.calls target) config target.eventName
        let st1 : RunState :=
          { st with calls := st.calls + 1, log := st.log ++ [.scrapeCall target] ++ r.1 }
        match r.2 with
        | some data =>
          some { st1 with
            allData := st1.allData ++ data, log := st1.log ++ [.scraped target data] }
        | none =>
          if st1.attempts + 1 < maxAttempts then
            retryLoop page target config fuel
              { st1 with
                attempts := st1.attempts + 1,
                log := st1.log ++ [.failed target, .wait backoffMs] }
          else
            retryLoop page target config fuel
              { st1 with
                attempts := st1.attempts + 1,
                log := st1.log ++ [.failed target, .maxAttemptsReached] }
    else some st

/-- The body of the `for` loop (lines 85–111) for one target. -/
def processTarget (configs : Registry) (page : Renderer) (st : RunState) (target : Target) :
    Option RunState :=
  match lookupConfig configs target.configName with
  | .undefined => some { st with log := st.log ++ [.noConfiguration target.configName] }
  | config => retryLoop page target config maxAttempts st

/-- The loop `for (const { url, configName, eventName } of urlsAndConfigs)`. -/
def forEachTarget (configs : Registry) (page : Renderer) :
    List Target → RunState → Option RunState
  | [], st => some st
  | target :: rest, st =>
    match processTarget configs page st target with
    | some st1 => forEachTarget configs page rest st1
    | none => none

/-- The final write (lines 114–116). -/
def flush (store : StoreOutcome) (st : RunState) : RunState :=
  if st.allData.length > 0 then { st with log := st.log ++ insertDataToDB store st.allData }
  else st

/-- The method `run(urlsAndConfigs)`. -/
def run (configs : Registry) (page : Renderer) (store : StoreOutcome)
    (urlsAndConfigs : List Target) : Option RunState :=
  (forEachTarget configs page urlsAndConfigs RunState.initial).map (flush store)

/-! ## Specification-level readings of a row -/

/-- The cell that the loop over `cells` (started at position `index`) leaves
under `key`: the last cell whose header key is `key`. -/
def lastCell (headers : List String) (key : String) : Nat → List String → Option String
  | _, [] => none
  | index, cell :: cells =>
    match lastCell headers key (index + 1) cells with
    | some c => some c
    | none => if headerKey headers index = key then some cell else none

/-- The record that the row-mapping property of the specification describes, in
its words: `Event` holds the label, and every field of the column map holds the
cell at the position where its source header occurs in the headers, or `"N/A"`
when the header does not occur. -/
def specRecord (mappings : JSObject String) (eventName : String) (headers cells : List String) :
    Record :=
  ("Event", .str eventName) ::
    mappings.map (fun p =>
      (p.1, match cells.get? (headers.indexOf p.2) with
            | some cell => JSVal.str cell
            | none => JSVal.str "N/A"))

/-! ## Reading the log -/

/-- Whether the event is a caught failure of `scrapeEventData`. -/
def Event.isFailure : Event → Bool
  | .failed _ => true
  | _ => false

/-- The target of a call of `scrapeEventData`. -/
def Event.scrapeTarget? : Event → Option Target
  | .scrapeCall t => some t
  | _ => none

/-- The target and the table data of a call of `scrapeEventData` that returned. -/
def Event.success? : Event → Option (Target × List Record)
  | .scraped t data => some (t, data)
  | _ => none

/-- The payload of a call of `insertDataToDB`. -/
def Event.storeWrite? : Event → Option (List Record)
  | .insertDataToDB data => some data
  | _ => none

/-- The payload of a call of `collection.insertMany`. -/
def Event.insertMany? : Event → Option (List Record)
  | .insertMany data => some data
  | _ => none

/-- The delay of a backoff wait. -/
def Event.wait? : Event → Option Nat
  | .wait ms => some ms
  | _ => none

/-- Number of caught failures in a log. -/
def failures (log : List Event) : Nat := log.countP Event.isFailure

/-- The targets of the calls of `scrapeEventData` in a log, in order. -/
def scrapeCalls (log : List Event) : List Target := log.filterMap Event.scrapeTarget?

/-- The calls of `scrapeEventData` that returned, with their table data, in order. -/
def successes (log : List Event) : List (Target × List Record) := log.filterMap Event.success?

/-- The payloads of the calls of `insertDataToDB` in a log. -/
def storeWrites (log : List Event) : List (List Record) := log.filterMap Event.storeWrite?

/-- The payloads of the calls of `insertMany` in a log. -/
def insertManyCalls (log : List Event) : List (List Record) := log.filterMap Event.insertMany?

/-- The backoff waits in a log. -/
def waits (log : List Event) : List Nat := log.filterMap Event.wait?

/-- Number of renderer sessions opened in a log. -/
def sessionsOpened (log : List Event) : Nat := log.count .sessionOpened

/-- Number of renderer sessions closed in a log. -/
def sessionsClosed (log : List Event) : Nat := log.count .sessionClosed

/-! ## Invariants of the runner -/

/-- What the retry loop for target `t` does to the state: `k` failed calls, then
either a call that returns, or the attempt counter at its maximum. -/
def LoopPost (page : Renderer) (t : Target) (c : ConfigVal) (st st2 : RunState) : Prop :=
  ∃ k : Nat,
    st2.attempts = st.attempts + k ∧
    (st.attempts ≤ maxAttempts → st2.attempts ≤ maxAttempts) ∧
    failures st2.log = failures st.log + k ∧
    storeWrites st2.log = storeWrites st.log ∧
    insertManyCalls st2.log = insertManyCalls st.log ∧
    ((∃ data n, (scrapeEventData (page n t) c t.eventName).2 = some data ∧
        st2.allData = st.allData ++ data ∧
        successes st2.log = successes st.log ++ [(t, data)] ∧
        st2.calls = st.calls + k + 1 ∧
        scrapeCalls st2.log = scrapeCalls st.log ++ List.replicate (k + 1) t ∧
        st2.attempts < maxAttempts) ∨
     (st2.allData = st.allData ∧
        successes st2.log = successes st.log ∧
        st2.calls = st.calls + k ∧
        scrapeCalls st2.log = scrapeCalls st.log ++ List.replicate k t ∧
        maxAttempts ≤ st2.attempts))

/-- The relations kept by the `for` loop after `n` targets: the counter counts
the caught failures and stays within `maxAttempts`, the calls made are the
failures and the returns, the accumulator is the concatenation of the returned
table data, and the store has not been touched. -/
def RunInv (n : Nat) (st : RunState) : Prop :=
  failures st.log = st.attempts ∧
  st.attempts ≤ maxAttempts ∧
  (scrapeCalls st.log).length = st.calls ∧
  st.calls ≤ n + st.attempts ∧
  (st.attempts = maxAttempts → st.calls + 1 ≤ n + st.attempts) ∧
  st.allData = ((successes st.log).map Prod.snd).flatten ∧
  storeWrites st.log = [] ∧
  insertManyCalls st.log = []

/-- Every return recorded in the log is a return of `scrapeEventData` on one of
the targets `ts`, under the configuration found for it. -/
def Provenance (configs : Registry) (page : Renderer) (ts : List Target)
    (log : List Event) : Prop :=
  ∀ p, p ∈ successes log → p.1 ∈ ts ∧
    ∃ n, (scrapeEventData (page n p.1) (lookupConfig configs p.1.configName)
      p.1.eventName).2 = some p.2

/-- Whether the read `this.configs[configName]` of a target is truthy, so that
the test `if (!config)` of line 87 lets the target through. -/
def hasConfig (configs : Registry) (t : Target) : Bool :=
  match lookupConfig configs t.configName with
  | .undefined => false
  | _ => true

/-- What the renderer gives back on a sequence of calls of `scrapeEventData`: of
the calls made on the targets `calls` in this order, the first being call
number `n` of the run, those that return, each with the table data returned. -/
def returnedCalls (configs : Registry) (page : Renderer) :
    Nat → List Target → List (Target × List Record)
  | _, [] => []
  | n, t :: rest =>
    match (scrapeEventData (page n t) (lookupConfig configs t.configName) t.eventName).2 with
    | some data => (t, data) :: returnedCalls configs page (n + 1) rest
    | none => returnedCalls configs page (n + 1) rest

/-! ## Concrete configurations, targets and renderers -/

/-- A configuration in the shape of those of the example usage (lines 129–148),
with two of its mappings. -/
def statsConfig : Config :=
  { tableSelector := "div.table-responsive", headerSelector := "thead th",
    rowSelector := "tbody tr", cellSelector := "td",
    mappings := [("Player", "Player"), ("Kills", "K")] }

/-- A registry with two of the configurations of the example usage. -/
def exampleRegistry : Registry :=
  addConfig (addConfig [] "valorantMastersMadrid" statsConfig) "valorantChampion2023" statsConfig

/-- The first target of the example usage (line 215). -/
def madrid : Target :=
  { url := "https://liquipedia.net/valorant/VCT/2024/Stage_1/Masters/Statistics",
    configName := "valorantMastersMadrid", eventName := "Masters Madrid" }

/-- The third target of the example usage (line 217). -/
def champions : Target :=
  { url := "https://liquipedia.net/valorant/VCT/2023/Champions/Statistics",
    configName := "valorantChampion2023", eventName := "Champions 2023" }

/-- A target whose configuration name was never registered. -/
def unregistered : Target :=
  { url := "https://liquipedia.net/valorant/VCT/2023/Masters/Statistics",
    configName := "constructor", eventName := "Masters Tokyo" }

/-- A renderer for which navigation to the page of `madrid` always fails and
every other page renders a table with one row. -/
def madridUnreachable : Renderer :=
  fun _ t => if t.configName = "valorantMastersMadrid" then .gotoFails
    else .rendered ["Player", "K"] [["Ace", "20"]]

/-- A renderer for which the first two calls of the run fail in navigation, the
page of `champions` never shows its table, and the other pages render. -/
def championsNeverReady : Renderer :=
  fun n t => if t.configName = "valorantChampion2023" then .waitForSelectorFails
    else if n < 2 then .gotoFails
    else .rendered ["Player", "K"] [["Ace", "20"]]

/-- A renderer whose first call fails while waiting for the table and whose
later calls render a table with one row. -/
def slowFirstLoad : Renderer :=
  fun n _ => if n < 1 then .waitForSelectorFails else .rendered ["Player", "K"] [["Ace", "20"]]

/-- A renderer for which every page renders a table with one row. -/
def alwaysRenders : Renderer :=
  fun _ _ => .rendered ["Player", "K"] [["Ace", "20"]]

/-- A renderer that never finds the table selector. -/
def selectorNeverFound : Renderer :=
  fun _ _ => .waitForSelectorFails

/-! ## Reading and writing own properties -/

theorem getOwn?_replaceOwn_ne {α : Type} (k key : String) (v : α) (o : JSObject α)
    (h : k ≠ key) : getOwn? k (replaceOwn key v o) = getOwn? k o := by
  induction o with
  | nil => rfl
  | cons p rest ih =>
    obtain ⟨k0, w⟩ := p
    by_cases h0 : k0 = key
    · subst h0
      have hk : ¬ k0 = k := fun e => h e.symm
      simp [replaceOwn, getOwn?, hk]
    · by_cases h1 : k0 = k
      · subst h1
        simp [replaceOwn, getOwn?, h0]
      · simp [replaceOwn, getOwn?, h0, h1, ih]

theorem getOwn?_replaceOwn_self {α : Type} (key : String) (v : α) (o : JSObject α)
    (h : (getOwn? key o).isSome) : getOwn? key (replaceOwn key v o) = some v := by
  induction o with
  | nil => simp [getOwn?] at h
  | cons p rest ih =>
    obtain ⟨k0, w⟩ := p
    by_cases h0 : k0 = key
    · simp [replaceOwn, getOwn?, h0]
    · simp only [getOwn?, h0, if_false] at h
      simp [replaceOwn, getOwn?, h0, ih h]

theorem getOwn?_insertIndexed_ne {α : Type} (i : Nat) (k key : String) (v : α)
    (o : JSObject α) (h : k ≠ key) :
    getOwn? k (insertIndexed i key v o) = getOwn? k o := by
  have hk : ¬ key = k := fun e => h e.symm
  induction o with
  | nil => simp [insertIndexed, getOwn?, hk]
  | cons p rest ih =>
    obtain ⟨k0, w⟩ := p
    simp only [insertIndexed]
    split
    · split
      · simp [getOwn?, hk]
      · by_cases h1 : k0 = k <;> simp [getOwn?, h1, ih]
    · simp [getOwn?, hk]

theorem getOwn?_insertIndexed_self {α : Type} (i : Nat) (key : String) (v : α)
    (o : JSObject α) (h : getOwn? key o = none) :
    getOwn? key (insertIndexed i key v o) = some v := by
  induction o with
  | nil => simp [insertIndexed, getOwn?]
  | cons p rest ih =>
    obtain ⟨k0, w⟩ := p
    by_cases h0 : k0 = key
    · simp [getOwn?, h0] at h
    · simp only [getOwn?, h0, if_false] at h
      simp only [insertIndexed]
      split
      · split
        · simp [getOwn?]
        · simp [getOwn?, h0, ih h]
      · simp [getOwn?]

theorem getOwn?_append_ne {α : Type} (k key : String) (v : α) (o : JSObject α)
    (h : k ≠ key) : getOwn? k (o ++ [(key, v)]) = getOwn? k o := by
  have hk : ¬ key = k := fun e => h e.symm
  induction o with
  | nil => simp [getOwn?, hk]
  | cons p rest ih =>
    obtain ⟨k0, w⟩ := p
    by_cases h1 : k0 = k <;> simp [getOwn?, h1, ih]

theorem getOwn?_append_self {α : Type} (key : String) (v : α) (o : JSObject α)
    (h : getOwn? key o = none) : getOwn? key (o ++ [(key, v)]) = some v := by
  induction o with
  | nil => simp [getOwn?]
  | cons p rest ih =>
    obtain ⟨k0, w⟩ := p
    by_cases h0 : k0 = key
    · simp [getOwn?, h0] at h
    · simp only [getOwn?, h0, if_false] at h
      simp [getOwn?, h0, ih h]

/-- An assignment leaves every other own property as it was. -/
theorem getOwn?_setProp_ne {α : Type} (k key : String) (v : α) (o : JSObject α)
    (h : k ≠ key) : getOwn? k (setProp o key v) = getOwn? k o := by
  unfold setProp
  split
  · exact getOwn?_replaceOwn_ne k key v o h
  · split
    · rfl
    · split
      · exact getOwn?_insertIndexed_ne _ k key v o h
      · exact getOwn?_append_ne k key v o h

/-- After `o[key] = v` the own property `key` holds `v`, for every key but `__proto__`. -/
theorem getOwn?_setProp_self {α : Type} (key : String) (v : α) (o : JSObject α)
    (h : key ≠ "__proto__") : getOwn? key (setProp o key v) = some v := by
  unfold setProp
  split
  · rename_i hs
    exact getOwn?_replaceOwn_self key v o hs
  · rename_i hs
    have hn : getOwn? key o = none := by
      cases hg : getOwn? key o with
      | none => rfl
      | some x => simp [hg] at hs
    split
    · exact getOwn?_insertIndexed_self _ key v o hn
    · exact getOwn?_append_self key v o hn

/-- An object without an own `__proto__` never gets one by assignment. -/
theorem getOwn?_setProp_proto {α : Type} (key : String) (v : α) (o : JSObject α)
    (h : getOwn? "__proto__" o = none) : getOwn? "__proto__" (setProp o key v) = none := by
  by_cases hk : key = "__proto__"
  · subst hk
    simp [setProp, h]
  · rw [getOwn?_setProp_ne _ _ _ _ (fun e => hk e.symm)]
    exact h

/-! ## The object `rowData` -/

theorem getOwn?_forEachCell (headers : List String) (key : String) (hkey : key ≠ "__proto__")
    (cells : List String) (index : Nat) (o : JSObject JSVal) :
    getOwn? key (forEachCell headers index cells o) =
      match lastCell headers key index cells with
      | some c => some (.str c)
      | none => getOwn? key o := by
  induction cells generalizing index o with
  | nil => rfl
  | cons cell cells ih =>
    rw [forEachCell, ih, lastCell]
    cases lastCell headers key (index + 1) cells with
    | some c => rfl
    | none =>
      by_cases hk : headerKey headers index = key
      · subst hk
        simp [getOwn?_setProp_self _ _ _ hkey]
      · simp [hk, getOwn?_setProp_ne key _ _ _ (fun e => hk e.symm)]

theorem getOwn?_forEachCell_proto (headers cells : List String) (index : Nat)
    (o : JSObject JSVal) (h : getOwn? "__proto__" o = none) :
    getOwn? "__proto__" (forEachCell headers index cells o) = none := by
  induction cells generalizing index o with
  | nil => exact h
  | cons cell cells ih =>
    rw [forEachCell]
    exact ih _ _ (getOwn?_setProp_proto _ _ _ h)

theorem lastCell_eq_none (headers : List String) (key : String) (cells : List String)
    (index : Nat) (h : ∀ j, j < cells.length → headerKey headers (index + j) ≠ key) :
    lastCell headers key index cells = none := by
  induction cells generalizing index with
  | nil => rfl
  | cons cell cells ih =>
    have h0 : headerKey headers index ≠ key := by simpa using h 0 (by simp)
    have hrest : ∀ j, j < cells.length → headerKey headers (index + 1 + j) ≠ key := by
      intro j hj
      have := h (j + 1) (by simp [hj])
      rwa [show index + (j + 1) = index + 1 + j by omega] at this
    simp [lastCell, ih _ hrest, h0]

theorem lastCell_eq_some (headers : List String) (key : String) (cells : List String)
    (index j : Nat) (hj : j < cells.length) (hkey : headerKey headers (index + j) = key)
    (hlast : ∀ j2, j < j2 → j2 < cells.length → headerKey headers (index + j2) ≠ key) :
    lastCell headers key index cells = some (cells.get ⟨j, hj⟩) := by
  induction cells generalizing index j with
  | nil => simp at hj
  | cons cell cells ih =>
    cases j with
    | zero =>
      have hrest : ∀ j, j < cells.length → headerKey headers (index + 1 + j) ≠ key := by
        intro j2 hj2
        have := hlast (j2 + 1) (by omega) (by simp [hj2])
        rwa [show index + (j2 + 1) = index + 1 + j2 by omega] at this
      have h0 : headerKey headers index = key := by simpa using hkey
      simp [lastCell, lastCell_eq_none _ _ _ _ hrest, h0]
    | succ j =>
      have hj1 : j < cells.length := by simpa using hj
      have hk1 : headerKey headers (index + 1 + j) = key := by
        rwa [show index + (j + 1) = index + 1 + j by omega] at hkey
      have hl1 : ∀ j2, j < j2 → j2 < cells.length → headerKey headers (index + 1 + j2) ≠ key := by
        intro j2 h1 h2
        have := hlast (j2 + 1) (by omega) (by simp [h2])
        rwa [show index + (j2 + 1) = index + 1 + j2 by omega] at this
      simp [lastCell, ih (index + 1) j hj1 hk1 hl1]

theorem headerKey_of_lt (headers : List String) (i : Nat) (h : i < headers.length) :
    headerKey headers i = headers.get ⟨i, h⟩ := by
  unfold headerKey
  rw [List.get?_eq_get h]

theorem headerKey_of_le (headers : List String) (i : Nat) (h : headers.length ≤ i) :
    headerKey headers i = "undefined" := by
  unfold headerKey
  rw [List.get?_eq_none.mpr h]

theorem forEachCell_append (headers : List String) (a b : List String) (index : Nat)
    (o : JSObject JSVal) :
    forEachCell headers index (a ++ b) o =
      forEachCell headers (index + a.length) b (forEachCell headers index a o) := by
  induction a generalizing index o with
  | nil => rfl
  | cons cell a ih =>
    rw [List.cons_append, forEachCell, forEachCell, ih, List.length_cons,
      show index + 1 + a.length = index + (a.length + 1) by omega]

/-- Cells past the last header are all written under the key `undefined`. -/
theorem getOwn?_forEachCell_past (headers : List String) (key : String)
    (hkey : key ≠ "undefined") (cells : List String) (index : Nat)
    (hidx : headers.length ≤ index) (o : JSObject JSVal) :
    getOwn? key (forEachCell headers index cells o) = getOwn? key o := by
  induction cells generalizing index o with
  | nil => rfl
  | cons cell cells ih =>
    rw [forEachCell, ih (index + 1) (by omega), headerKey_of_le _ _ hidx]
    exact getOwn?_setProp_ne key _ _ _ hkey

/-! ## The object `mappedRow` -/

theorem getOwn?_foldl_setProp {α : Type} (g : String → α) (key : String)
    (hkey : key ≠ "__proto__") (keys : List String) (o : JSObject α) :
    getOwn? key (keys.foldl (fun acc k => setProp acc k (g k)) o) =
      if key ∈ keys then some (g key) else getOwn? key o := by
  induction keys generalizing o with
  | nil => simp
  | cons k keys ih =>
    rw [List.foldl_cons, ih]
    by_cases hmem : key ∈ keys
    · simp [hmem]
    · by_cases hk : key = k
      · subst hk
        simp [hmem, getOwn?_setProp_self _ _ _ hkey]
      · simp [hmem, hk, getOwn?_setProp_ne key k _ _ hk]

theorem getOwn?_foldl_setProp_proto {α : Type} (g : String → α) (keys : List String)
    (o : JSObject α) (h : getOwn? "__proto__" o = none) :
    getOwn? "__proto__" (keys.foldl (fun acc k => setProp acc k (g k)) o) = none := by
  induction keys generalizing o with
  | nil => exact h
  | cons k keys ih =>
    rw [List.foldl_cons]
    exact ih _ (getOwn?_setProp_proto _ _ _ h)

theorem foldl_setProp_congr {α : Type} (g1 g2 : String → α) (keys : List String)
    (o : JSObject α) (h : ∀ k, k ∈ keys → g1 k = g2 k) :
    keys.foldl (fun acc k => setProp acc k (g1 k)) o =
      keys.foldl (fun acc k => setProp acc k (g2 k)) o := by
  induction keys generalizing o with
  | nil => rfl
  | cons k keys ih =>
    rw [List.foldl_cons, List.foldl_cons, h k (by simp)]
    exact ih _ (fun k2 hk2 => h k2 (by simp [hk2]))

theorem mem_keys_iff {α : Type} (key : String) (o : JSObject α) :
    key ∈ o.map Prod.fst ↔ (getOwn? key o).isSome := by
  induction o with
  | nil => simp [getOwn?]
  | cons p rest ih =>
    obtain ⟨k0, w⟩ := p
    by_cases h0 : k0 = key
    · simp [getOwn?, h0]
    · have h1 : ¬ key = k0 := fun e => h0 e.symm
      simp [getOwn?, h0, h1, ih]

theorem mappingSource_of_own (mappings : JSObject String) (field src : String)
    (h : getOwn? field mappings = some src) : mappingSource mappings field = src := by
  simp [mappingSource, h]

/-- The value `mapRow` stores under a field of the mappings. -/
theorem getOwn?_mapRow (mappings : JSObject String) (eventName : String) (row : JSObject JSVal)
    (field src : String) (h : getOwn? field mappings = some src) (hf : field ≠ "__proto__") :
    getOwn? field (mapRow mappings eventName row) =
      some ((getProp row src).orElse (.str "N/A")) := by
  have hmem : field ∈ mappings.map Prod.fst := (mem_keys_iff field mappings).mpr (by simp [h])
  unfold mapRow
  rw [getOwn?_foldl_setProp
    (fun key => (getProp row (mappingSource mappings key)).orElse (.str "N/A")) field hf]
  simp [hmem, mappingSource_of_own _ _ _ h]

theorem getProp_rowData_of_last (headers cells : List String) (src : String)
    (hsrc : src ≠ "__proto__") (i : Nat) (hi : i < headers.length) (hc : i < cells.length)
    (hle : cells.length ≤ headers.length)
    (hat : headers.get ⟨i, hi⟩ = src) (hlast : src ∉ headers.drop (i + 1)) :
    getProp (rowData headers cells) src = .str (cells.get ⟨i, hc⟩) := by
  have hl : lastCell headers src 0 cells = some (cells.get ⟨i, hc⟩) := by
    apply lastCell_eq_some headers src cells 0 i hc
    · rw [Nat.zero_add, headerKey_of_lt _ _ hi]
      exact hat
    · intro j2 hij hj2 heq
      have hj : j2 < headers.length := by omega
      rw [Nat.zero_add, headerKey_of_lt _ _ hj] at heq
      apply hlast
      rw [← heq]
      have hd : j2 - (i + 1) < (headers.drop (i + 1)).length := by
        rw [List.length_drop]
        omega
      have hget : (headers.drop (i + 1)).get ⟨j2 - (i + 1), hd⟩ = headers.get ⟨j2, hj⟩ := by
        simp only [List.get_eq_getElem, List.getElem_drop]
        congr 1
        omega
      rw [← hget]
      exact List.get_mem _ _ _
  unfold getProp rowData
  rw [getOwn?_forEachCell headers src hsrc, hl]

theorem getProp_rowData_of_absent (headers cells : List String) (src : String)
    (habs : src ∉ headers.take cells.length) (hle : cells.length ≤ headers.length)
    (hproto : src ∉ objectPrototypeKeys) :
    getProp (rowData headers cells) src = .undefined := by
  have hsrc : src ≠ "__proto__" := by
    intro e
    apply hproto
    rw [e]
    decide
  have hl : lastCell headers src 0 cells = none := by
    apply lastCell_eq_none
    intro j hj heq
    have hjh : j < headers.length := by omega
    rw [Nat.zero_add, headerKey_of_lt _ _ hjh] at heq
    apply habs
    rw [← heq]
    have ht : j < (headers.take cells.length).length := by
      rw [List.length_take]
      omega
    have hget : (headers.take cells.length).get ⟨j, ht⟩ = headers.get ⟨j, hjh⟩ := by
      simp [List.getElem_take]
    rw [← hget]
    exact List.get_mem _ _ _
  unfold getProp rowData
  rw [getOwn?_forEachCell headers src hsrc, hl]
  simp [getOwn?, hproto]

/-! ## The extractor: row mapping, row tolerance, output shape -/

/-- C1, as the code has it. For headers and cells of equal length and a column
map without a field named `__proto__`, the own fields of the record are `Event`
and the fields of the column map; `Event` holds the label unless the column map
has a field `Event`; a field whose source header (other than `__proto__`) occurs
in the headers holds the cell at the last position where it occurs, or `"N/A"`
when that cell is the empty string; a field whose source header does not occur
in the headers and is not the name of a member of `Object.prototype` holds
`"N/A"`. -/
theorem scrapeEventData_row_mapping (headers cells : List String) (mappings : JSObject String)
    (eventName : String) (hlen : cells.length = headers.length)
    (hnoproto : getOwn? "__proto__" mappings = none) :
    (∀ key, (getOwn? key (mapRow mappings eventName (rowData headers cells))).isSome ↔
        (key = "Event" ∨ (getOwn? key mappings).isSome)) ∧
    (getOwn? "Event" mappings = none →
        getOwn? "Event" (mapRow mappings eventName (rowData headers cells)) =
          some (.str eventName)) ∧
    (∀ field src, getOwn? field mappings = some src →
        (∀ i (hi : i < headers.length) (hc : i < cells.length),
          headers.get ⟨i, hi⟩ = src → src ≠ "__proto__" → src ∉ headers.drop (i + 1) →
          getOwn? field (mapRow mappings eventName (rowData headers cells)) =
            some (.str (if cells.get ⟨i, hc⟩ = "" then "N/A" else cells.get ⟨i, hc⟩))) ∧
        (src ∉ headers → src ∉ objectPrototypeKeys →
          getOwn? field (mapRow mappings eventName (rowData headers cells)) =
            some (.str "N/A"))) := by
  refine ⟨?_, ?_, ?_⟩
  · intro key
    by_cases hp : key = "__proto__"
    · subst hp
      have : getOwn? "__proto__" (mapRow mappings eventName (rowData headers cells)) = none := by
        unfold mapRow
        apply getOwn?_foldl_setProp_proto
        simp [getOwn?]
      rw [this, hnoproto]
      simp
    · unfold mapRow
      rw [getOwn?_foldl_setProp _ key hp]
      by_cases hm : key ∈ mappings.map Prod.fst
      · have := (mem_keys_iff key mappings).mp hm
        simp [hm, this]
      · have hn : ¬ (getOwn? key mappings).isSome := fun h => hm ((mem_keys_iff key mappings).mpr h)
        by_cases he : key = "Event"
        · subst he
          simp [hm, getOwn?]
        · have he2 : ¬ "Event" = key := fun e => he e.symm
          simp [hm, he, he2, hn, getOwn?]
  · intro hE
    have hm : "Event" ∉ mappings.map Prod.fst := by
      intro h
      have := (mem_keys_iff "Event" mappings).mp h
      simp [hE] at this
    unfold mapRow
    rw [getOwn?_foldl_setProp _ "Event" (by decide), if_neg hm]
    simp [getOwn?]
  · intro field src hmap
    have hfield : field ≠ "__proto__" := by
      intro e
      rw [e, hnoproto] at hmap
      cases hmap
    refine ⟨?_, ?_⟩
    · intro i hi hc hat hsrc hlast
      rw [getOwn?_mapRow _ _ _ field src hmap hfield,
        getProp_rowData_of_last headers cells src hsrc i hi hc (by omega) hat hlast]
      by_cases hcell : cells.get ⟨i, hc⟩ = ""
      · simp only [List.get_eq_getElem] at hcell ⊢
        simp [JSVal.orElse, JSVal.truthy, hcell]
      · simp only [List.get_eq_getElem] at hcell ⊢
        simp [JSVal.orElse, JSVal.truthy, hcell]
    · intro habs hproto
      have habs2 : src ∉ headers.take cells.length := fun h => habs (List.mem_of_mem_take h)
      rw [getOwn?_mapRow _ _ _ field src hmap hfield,
        getProp_rowData_of_absent headers cells src habs2 (by omega) hproto]
      simp [JSVal.orElse, JSVal.truthy]

/-- The worked example of the specification, and `scrapeEventData_row_mapping`
applied to its field `Kills`. -/
theorem scrapeEventData_row_mapping_witness :
    mapRow [("Player", "Player"), ("Kills", "K")] "Champions 2023"
        (rowData ["#", "Player", "K"] ["1", "Ace", "20"]) =
      [("Event", .str "Champions 2023"), ("Player", .str "Ace"), ("Kills", .str "20")] ∧
    getOwn? "Kills" (mapRow [("Player", "Player"), ("Kills", "K")] "Champions 2023"
        (rowData ["#", "Player", "K"] ["1", "Ace", "20"])) = some (.str "20") :=
  ⟨by decide,
   ((scrapeEventData_row_mapping ["#", "Player", "K"] ["1", "Ace", "20"]
      [("Player", "Player"), ("Kills", "K")] "Champions 2023" (by decide) (by decide)).2.2
      "Kills" "K" (by decide)).1 2 (by decide) (by decide) (by decide)
      (by decide) (by decide)⟩

/-- C1 fails as stated: an empty cell under the mapped header is replaced by
`"N/A"`, where the specification's record holds the cell itself. -/
theorem row_mapping_empty_cell :
    ["" ].length = ["K"].length ∧
    getOwn? "Kills" (mapRow [("Kills", "K")] "Champions 2023" (rowData ["K"] [""])) =
      some (.str "N/A") ∧
    getOwn? "Kills" (specRecord [("Kills", "K")] "Champions 2023" ["K"] [""]) =
      some (.str "") := by
  decide

/-- With a header that labels two columns, the field mapped to it holds the cell
of the later column. -/
theorem row_mapping_repeated_header :
    getOwn? "Kills" (mapRow [("Kills", "K")] "Champions 2023" (rowData ["K", "K"] ["1", "2"])) =
      some (.str "2") := by
  decide

/-- A source header that names a member of `Object.prototype` and is absent from
the headers is read through the prototype: the field holds the inherited
member, not `"N/A"`. -/
theorem row_mapping_inherited_member :
    "constructor" ∉ ["#"] ∧
    getOwn? "Maker" (mapRow [("Maker", "constructor")] "Champions 2023" (rowData ["#"] ["1"])) =
      some (.inherited "constructor") := by
  decide

theorem getProp_rowData_take (headers cells : List String) (src : String)
    (hlen : headers.length < cells.length) (hsrc : src ≠ "undefined") :
    getProp (rowData headers cells) src =
      getProp (rowData headers (cells.take headers.length)) src := by
  have hsplit : rowData headers cells =
      forEachCell headers (0 + (cells.take headers.length).length) (cells.drop headers.length)
        (rowData headers (cells.take headers.length)) := by
    unfold rowData
    rw [← forEachCell_append, List.take_append_drop]
  have hidx : headers.length ≤ 0 + (cells.take headers.length).length := by
    rw [List.length_take]
    omega
  unfold getProp
  rw [hsplit, getOwn?_forEachCell_past headers src hsrc _ _ hidx]

/-- C6, as the code has it. The cells of a row past the last header are all
written under the key `undefined`: when no field of the column map has the
source header `undefined`, the record of a row longer than the headers is the
record of the row cut to the length of the headers. -/
theorem scrapeEventData_long_row (headers cells : List String) (mappings : JSObject String)
    (eventName : String) (hlen : headers.length < cells.length)
    (hsrc : ∀ field src, getOwn? field mappings = some src → src ≠ "undefined") :
    mapRow mappings eventName (rowData headers cells) =
      mapRow mappings eventName (rowData headers (cells.take headers.length)) := by
  unfold mapRow
  apply foldl_setProp_congr
  intro key hkey
  have hown := (mem_keys_iff key mappings).mp hkey
  cases hg : getOwn? key mappings with
  | none => simp [hg] at hown
  | some src =>
    rw [mappingSource_of_own _ _ _ hg,
      getProp_rowData_take headers cells src hlen (hsrc key src hg)]

/-- A row of three cells under two headers, with no field mapped to the header
`undefined`: `scrapeEventData_long_row` applies and the third cell is lost. -/
theorem scrapeEventData_long_row_witness :
    mapRow [("Player", "Player"), ("Kills", "K")] "Masters Tokyo"
        (rowData ["Player", "K"] ["Ace", "20", "extra"]) =
      mapRow [("Player", "Player"), ("Kills", "K")] "Masters Tokyo"
        (rowData ["Player", "K"] (["Ace", "20", "extra"].take ["Player", "K"].length)) :=
  scrapeEventData_long_row ["Player", "K"] ["Ace", "20", "extra"]
    [("Player", "Player"), ("Kills", "K")] "Masters Tokyo" (by decide)
    (by
      intro field src h
      simp only [getOwn?] at h
      split at h
      · cases h; decide
      · split at h
        · cases h; decide
        · cases h)

/-- C6 fails as stated: with a field mapped to the header `undefined`, the
record of a long row holds its last extra cell, the record of the cut row holds
`"N/A"`. -/
theorem long_row_extra_cell_kept :
    ["A"].length < ["x", "y"].length ∧
    mapRow [("Extra", "undefined")] "Masters Tokyo" (rowData ["A"] ["x", "y"]) =
      [("Event", .str "Masters Tokyo"), ("Extra", .str "y")] ∧
    mapRow [("Extra", "undefined")] "Masters Tokyo" (rowData ["A"] (["x", "y"].take ["A"].length)) =
      [("Event", .str "Masters Tokyo"), ("Extra", .str "N/A")] := by
  decide

/-- C7, as the code has it. In a row shorter than the headers, with a column
map without a field named `__proto__`, a field holds `"N/A"` when its source
header does not sit among the headers at an index below the number of cells (so
also when it sits only at indices past the cells) and is not the name of a
member of `Object.prototype`. -/
theorem scrapeEventData_short_row (headers cells : List String) (mappings : JSObject String)
    (eventName : String) (hlen : cells.length < headers.length)
    (hnoproto : getOwn? "__proto__" mappings = none) (field src : String)
    (hmap : getOwn? field mappings = some src)
    (hbefore : src ∉ headers.take cells.length) (hproto : src ∉ objectPrototypeKeys) :
    getOwn? field (mapRow mappings eventName (rowData headers cells)) = some (.str "N/A") := by
  have hfield : field ≠ "__proto__" := by
    intro e
    rw [e, hnoproto] at hmap
    cases hmap
  rw [getOwn?_mapRow _ _ _ field src hmap hfield,
    getProp_rowData_of_absent headers cells src hbefore (by omega) hproto]
  simp [JSVal.orElse, JSVal.truthy]

/-- A row with one cell under the headers `Player`, `K`: the header `K` sits at
index 1, past the cell, and the field `Kills` is `"N/A"`. -/
theorem scrapeEventData_short_row_witness :
    ["Player", "K"].get? 1 = some "K" ∧
    getOwn? "Kills" (mapRow [("Player", "Player"), ("Kills", "K")] "Masters Tokyo"
      (rowData ["Player", "K"] ["Ace"])) = some (.str "N/A") :=
  ⟨by decide,
   scrapeEventData_short_row ["Player", "K"] ["Ace"] [("Player", "Player"), ("Kills", "K")]
    "Masters Tokyo" (by decide) (by decide) "Kills" "K" (by decide) (by decide) (by decide)⟩

/-- C7 fails as stated: the header `K` sits at index 1, past the single cell,
and the field mapped to it holds the cell of the earlier column of the same
name, not `"N/A"`. -/
theorem short_row_repeated_header :
    ["5"].length < ["K", "K"].length ∧ ["5"].length ≤ 1 ∧ ["K", "K"].get? 1 = some "K" ∧
    getOwn? "Kills" (mapRow [("Kills", "K")] "Masters Tokyo" (rowData ["K", "K"] ["5"])) =
      some (.str "5") := by
  decide

theorem foldl_push_eq_map {α β : Type} (f : α → β) (xs : List α) (init : List β) :
    xs.foldl (fun results x => results ++ [f x]) init = init ++ xs.map f := by
  induction xs generalizing init with
  | nil => simp
  | cons x xs ih => simp [List.foldl_cons, ih]

/-- C8. The callback returns one record per row, the record at each position
being the mapping of the row at that position; nothing is dropped, merged,
reordered or deduplicated, and a table without rows gives the empty sequence.
When every renderer step resolves, `scrapeEventData` returns that sequence. -/
theorem scrapeEventData_output_shape (mappings : JSObject String) (eventName : String)
    (headers : List String) (rows : List (List String)) (config : Config) :
    evaluateCallback mappings eventName headers rows =
      rows.map (fun cells => mapRow mappings eventName (rowData headers cells)) ∧
    (evaluateCallback mappings eventName headers rows).length = rows.length ∧
    (∀ i : Nat, (evaluateCallback mappings eventName headers rows)[i]? =
      rows[i]?.map (fun cells => mapRow mappings eventName (rowData headers cells))) ∧
    evaluateCallback mappings eventName headers [] = [] ∧
    (scrapeEventData (.rendered headers rows) (.config config) eventName).2 =
      some (rows.map (fun cells => mapRow config.mappings eventName (rowData headers cells))) := by
  have h : ∀ m : JSObject String, evaluateCallback m eventName headers rows =
      rows.map (fun cells => mapRow m eventName (rowData headers cells)) := by
    intro m
    unfold evaluateCallback
    simp [foldl_push_eq_map]
  refine ⟨h mappings, ?_, ?_, rfl, ?_⟩
  · rw [h, List.length_map]
  · intro i
    rw [h, List.getElem?_map]
  · simp only [scrapeEventData, ConfigVal.mappings]
    rw [h]

/-! ## One iteration of the retry loop -/

theorem retryLoop_zero (page : Renderer) (t : Target) (c : ConfigVal) (st : RunState) :
    retryLoop page t c 0 st = if st.attempts < maxAttempts then none else some st := by
  simp [retryLoop]

theorem retryLoop_succ (page : Renderer) (t : Target) (c : ConfigVal) (fuel : Nat)
    (st : RunState) :
    retryLoop page t c (fuel + 1) st =
      if st.attempts < maxAttempts then
        match (scrapeEventData (page st.calls t) c t.eventName).2 with
        | some data =>
          some { attempts := st.attempts, allData := st.allData ++ data, calls := st.calls + 1,
                 log := st.log ++ [.scrapeCall t] ++
                   (scrapeEventData (page st.calls t) c t.eventName).1 ++ [.scraped t data] }
        | none =>
          retryLoop page t c fuel
            { attempts := st.attempts + 1, allData := st.allData, calls := st.calls + 1,
              log := st.log ++ [.scrapeCall t] ++
                (scrapeEventData (page st.calls t) c t.eventName).1 ++
                [.failed t,
                  if st.attempts + 1 < maxAttempts then .wait backoffMs
                  else .maxAttemptsReached] }
      else some st := by
  rw [retryLoop]
  split
  · split <;> rename_i h <;> simp only [h]
    split <;> rfl
  · rfl

theorem retryLoop_exit (page : Renderer) (t : Target) (c : ConfigVal) (fuel : Nat)
    (st : RunState) (h : ¬ st.attempts < maxAttempts) :
    retryLoop page t c fuel st = some st := by
  cases fuel with
  | zero => simp [retryLoop_zero, h]
  | succ fuel => simp [retryLoop_succ, h]

theorem scrapeEventData_log (outcome : PageOutcome) (c : ConfigVal) (eventName : String) :
    failures (scrapeEventData outcome c eventName).1 = 0 ∧
    scrapeCalls (scrapeEventData outcome c eventName).1 = [] ∧
    successes (scrapeEventData outcome c eventName).1 = [] ∧
    storeWrites (scrapeEventData outcome c eventName).1 = [] ∧
    insertManyCalls (scrapeEventData outcome c eventName).1 = [] := by
  cases outcome <;>
    simp [scrapeEventData, failures, scrapeCalls, successes, storeWrites, insertManyCalls,
      Event.isFailure, Event.scrapeTarget?, Event.success?, Event.storeWrite?,
      Event.insertMany?]

theorem failures_append (a b : List Event) : failures (a ++ b) = failures a + failures b := by
  simp [failures, List.countP_append]

theorem scrapeCalls_append (a b : List Event) :
    scrapeCalls (a ++ b) = scrapeCalls a ++ scrapeCalls b := by
  simp [scrapeCalls, List.filterMap_append]

theorem successes_append (a b : List Event) :
    successes (a ++ b) = successes a ++ successes b := by
  simp [successes, List.filterMap_append]

theorem storeWrites_append (a b : List Event) :
    storeWrites (a ++ b) = storeWrites a ++ storeWrites b := by
  simp [storeWrites, List.filterMap_append]

theorem insertManyCalls_append (a b : List Event) :
    insertManyCalls (a ++ b) = insertManyCalls a ++ insertManyCalls b := by
  simp [insertManyCalls, List.filterMap_append]

theorem retryLoop_post (page : Renderer) (t : Target) (c : ConfigVal) (fuel : Nat)
    (st : RunState) (hfuel : maxAttempts - st.attempts ≤ fuel) :
    ∃ st2, retryLoop page t c fuel st = some st2 ∧ LoopPost page t c st st2 := by
  induction fuel generalizing st with
  | zero =>
    have h : ¬ st.attempts < maxAttempts := by omega
    exact ⟨st, retryLoop_exit page t c 0 st h, 0, by simp, fun hle => hle, by simp, rfl, rfl,
      Or.inr ⟨rfl, rfl, by simp, by simp, by omega⟩⟩
  | succ fuel ih =>
    by_cases h : st.attempts < maxAttempts
    · obtain ⟨hf, hc, hs, hw, hm⟩ :=
        scrapeEventData_log (page st.calls t) c t.eventName
      rw [retryLoop_succ, if_pos h]
      cases hr : (scrapeEventData (page st.calls t) c t.eventName).2 with
      | some data =>
        refine ⟨_, rfl, 0, by simp, fun hle => hle, ?_, ?_, ?_,
          Or.inl ⟨data, st.calls, hr, rfl, ?_, by simp, ?_, h⟩⟩
        · simp only [failures_append, hf]
          simp [failures, Event.isFailure]
        · simp only [storeWrites_append, hw]
          simp [storeWrites, Event.storeWrite?]
        · simp only [insertManyCalls_append, hm]
          simp [insertManyCalls, Event.insertMany?]
        · simp only [successes_append, hs]
          simp [successes, Event.success?]
        · simp only [scrapeCalls_append, hc]
          simp [scrapeCalls, Event.scrapeTarget?]
      | none =>
        obtain ⟨st2, hrun, k, ha, hbound, hfl, hsw, him, hcase⟩ := ih
          { attempts := st.attempts + 1, allData := st.allData, calls := st.calls + 1,
            log := st.log ++ [.scrapeCall t] ++
              (scrapeEventData (page st.calls t) c t.eventName).1 ++
              [.failed t,
                if st.attempts + 1 < maxAttempts then .wait backoffMs
                else .maxAttemptsReached] }
          (by simp only; omega)
        have hfl0 : failures (st.log ++ [.scrapeCall t] ++
              (scrapeEventData (page st.calls t) c t.eventName).1 ++
              [.failed t,
                if st.attempts + 1 < maxAttempts then .wait backoffMs
                else .maxAttemptsReached]) = failures st.log + 1 := by
          simp only [failures_append, hf]
          split <;> simp [failures, Event.isFailure]
        have hsw0 : storeWrites (st.log ++ [.scrapeCall t] ++
              (scrapeEventData (page st.calls t) c t.eventName).1 ++
              [.failed t,
                if st.attempts + 1 < maxAttempts then .wait backoffMs
                else .maxAttemptsReached]) = storeWrites st.log := by
          simp only [storeWrites_append, hw]
          split <;> simp [storeWrites, Event.storeWrite?]
        have him0 : insertManyCalls (st.log ++ [.scrapeCall t] ++
              (scrapeEventData (page st.calls t) c t.eventName).1 ++
              [.failed t,
                if st.attempts + 1 < maxAttempts then .wait backoffMs
                else .maxAttemptsReached]) = insertManyCalls st.log := by
          simp only [insertManyCalls_append, hm]
          split <;> simp [insertManyCalls, Event.insertMany?]
        have hs0 : successes (st.log ++ [.scrapeCall t] ++
              (scrapeEventData (page st.calls t) c t.eventName).1 ++
              [.failed t,
                if st.attempts + 1 < maxAttempts then .wait backoffMs
                else .maxAttemptsReached]) = successes st.log := by
          simp only [successes_append, hs]
          split <;> simp [successes, Event.success?]
        have hc0 : scrapeCalls (st.log ++ [.scrapeCall t] ++
              (scrapeEventData (page st.calls t) c t.eventName).1 ++
              [.failed t,
                if st.attempts + 1 < maxAttempts then .wait backoffMs
                else .maxAttemptsReached]) = scrapeCalls st.log ++ [t] := by
          simp only [scrapeCalls_append, hc]
          split <;> simp [scrapeCalls, Event.scrapeTarget?]
        simp only at ha hbound hfl hsw him hcase
        rw [hfl0] at hfl
        rw [hsw0] at hsw
        rw [him0] at him
        rw [hs0, hc0] at hcase
        refine ⟨st2, hrun, k + 1, by omega, fun _ => hbound (by omega), by omega, hsw, him, ?_⟩
        rcases hcase with ⟨data, n, hd, hall, hsucc, hcalls, hsc, hlt⟩ | ⟨hall, hsucc, hcalls, hsc, hge⟩
        · refine Or.inl ⟨data, n, hd, hall, hsucc, by omega, ?_, hlt⟩
          rw [hsc, List.append_assoc]
          rfl
        · refine Or.inr ⟨hall, hsucc, by omega, ?_, hge⟩
          rw [hsc, List.append_assoc]
          rfl
    · exact ⟨st, retryLoop_exit page t c _ st h, 0, by simp, fun hle => hle, by simp, rfl, rfl,
        Or.inr ⟨rfl, rfl, by simp, by simp, by omega⟩⟩

theorem waits_append (a b : List Event) : waits (a ++ b) = waits a ++ waits b := by
  simp [waits, List.filterMap_append]

theorem scrapeEventData_waits (outcome : PageOutcome) (c : ConfigVal) (eventName : String) :
    waits (scrapeEventData outcome c eventName).1 = [] := by
  cases outcome <;> simp [scrapeEventData, waits, Event.wait?]

/-- The retry loop on a target whose extraction fails on every call, entered
with the counter at `a`: it makes `maxAttempts - a` calls, waits `backoffMs`
between consecutive calls, adds no record and leaves the counter at
`maxAttempts`. -/
theorem retryLoop_always_failing (page : Renderer) (t : Target) (c : ConfigVal)
    (hfail : ∀ n, (scrapeEventData (page n t) c t.eventName).2 = none) (fuel : Nat)
    (st : RunState) (hfuel : maxAttempts - st.attempts ≤ fuel)
    (hle : st.attempts ≤ maxAttempts) :
    ∃ st2, retryLoop page t c fuel st = some st2 ∧ st2.attempts = maxAttempts ∧
      st2.allData = st.allData ∧
      scrapeCalls st2.log =
        scrapeCalls st.log ++ List.replicate (maxAttempts - st.attempts) t ∧
      waits st2.log =
        waits st.log ++ List.replicate (maxAttempts - st.attempts - 1) backoffMs := by
  induction fuel generalizing st with
  | zero =>
    have h : ¬ st.attempts < maxAttempts := by omega
    have h0 : maxAttempts - st.attempts = 0 := by omega
    exact ⟨st, retryLoop_exit page t c 0 st h, by omega, rfl, by simp [h0], by simp [h0]⟩
  | succ fuel ih =>
    by_cases h : st.attempts < maxAttempts
    · obtain ⟨-, hc, -, -, -⟩ := scrapeEventData_log (page st.calls t) c t.eventName
      have hw := scrapeEventData_waits (page st.calls t) c t.eventName
      rw [retryLoop_succ, if_pos h, hfail]
      obtain ⟨st2, hrun, ha, hall, hsc, hwt⟩ := ih
        { attempts := st.attempts + 1, allData := st.allData, calls := st.calls + 1,
          log := st.log ++ [.scrapeCall t] ++
            (scrapeEventData (page st.calls t) c t.eventName).1 ++
            [.failed t,
              if st.attempts + 1 < maxAttempts then .wait backoffMs
              else .maxAttemptsReached] }
        (by simp only; omega) (by simp only; omega)
      simp only at hall hsc hwt
      refine ⟨st2, hrun, ha, hall, ?_, ?_⟩
      · rw [hsc]
        simp only [scrapeCalls_append, hc]
        have hrep : maxAttempts - st.attempts = (maxAttempts - (st.attempts + 1)) + 1 := by
          omega
        rw [hrep, List.replicate_succ]
        split <;> simp [scrapeCalls, Event.scrapeTarget?]
      · rw [hwt]
        simp only [waits_append, hw]
        by_cases hlt : st.attempts + 1 < maxAttempts
        · have hrep : maxAttempts - st.attempts - 1 =
              (maxAttempts - (st.attempts + 1) - 1) + 1 := by omega
          rw [hrep, List.replicate_succ, if_pos hlt]
          simp [waits, Event.wait?]
        · have h1 : maxAttempts - (st.attempts + 1) - 1 = 0 := by omega
          have h2 : maxAttempts - st.attempts - 1 = 0 := by omega
          rw [h1, h2, if_neg hlt]
          simp [waits, Event.wait?]
    · have h0 : maxAttempts - st.attempts = 0 := by omega
      exact ⟨st, retryLoop_exit page t c _ st h, by omega, rfl, by simp [h0], by simp [h0]⟩

/-! ## The loop over the targets -/

theorem processTarget_eq (configs : Registry) (page : Renderer) (st : RunState) (t : Target) :
    processTarget configs page st t =
      if lookupConfig configs t.configName = .undefined then
        some { st with log := st.log ++ [.noConfiguration t.configName] }
      else retryLoop page t (lookupConfig configs t.configName) maxAttempts st := by
  unfold processTarget
  cases lookupConfig configs t.configName <;> simp

theorem RunInv.initial : RunInv 0 RunState.initial := by
  simp [RunInv, RunState.initial, failures, scrapeCalls, successes, storeWrites,
    insertManyCalls, maxAttempts]

theorem processTarget_post (configs : Registry) (page : Renderer) (n : Nat) (st : RunState)
    (t : Target) (hinv : RunInv n st) :
    ∃ st2, processTarget configs page st t = some st2 ∧ RunInv (n + 1) st2 ∧
      (∃ s, List.Sublist s [t] ∧
        (successes st2.log).map Prod.fst = (successes st.log).map Prod.fst ++ s) ∧
      (∀ p, p ∈ successes st2.log → p ∈ successes st.log ∨
        (p.1 = t ∧ ∃ m, (scrapeEventData (page m t) (lookupConfig configs t.configName)
          t.eventName).2 = some p.2)) := by
  obtain ⟨h1, h2, h3, h4, h5, h6, h7, h8⟩ := hinv
  rw [processTarget_eq]
  by_cases hcfg : lookupConfig configs t.configName = .undefined
  · rw [if_pos hcfg]
    refine ⟨_, rfl, ⟨?_, h2, ?_, by simp only; omega, ?_, ?_, ?_, ?_⟩, ⟨[], by simp, ?_⟩, ?_⟩
    · simp only [failures_append, h1]
      simp [failures, Event.isFailure]
    · simp only [scrapeCalls_append, List.length_append, h3]
      simp [scrapeCalls, Event.scrapeTarget?]
    · intro hmax
      have := h5 hmax
      simp only
      omega
    · simp only [successes_append, h6]
      simp [successes, Event.success?]
    · simp only [storeWrites_append, h7]
      simp [storeWrites, Event.storeWrite?]
    · simp only [insertManyCalls_append, h8]
      simp [insertManyCalls, Event.insertMany?]
    · simp only [successes_append]
      simp [successes, Event.success?]
    · intro p hp
      simp only [successes_append] at hp
      simp [successes, Event.success?] at hp
      exact Or.inl (by simpa [successes] using hp)
  · rw [if_neg hcfg]
    obtain ⟨st2, hrun, k, ha, hbound, hfl, hsw, him, hcase⟩ :=
      retryLoop_post page t (lookupConfig configs t.configName) maxAttempts st (by omega)
    have hle := hbound h2
    refine ⟨st2, hrun, ?_, ?_, ?_⟩
    · rcases hcase with ⟨data, m, hd, hall, hsucc, hcalls, hsc, hlt⟩ | ⟨hall, hsucc, hcalls, hsc, hge⟩
      · refine ⟨by omega, hle, ?_, by omega, fun hmax => by omega, ?_, by rw [hsw, h7],
          by rw [him, h8]⟩
        · rw [hsc, List.length_append, List.length_replicate, h3, hcalls]
          omega
        · rw [hall, hsucc, h6]
          simp
      · refine ⟨by omega, hle, ?_, by omega, ?_, ?_, by rw [hsw, h7], by rw [him, h8]⟩
        · rw [hsc, List.length_append, List.length_replicate, h3, hcalls]
        · intro hmax
          by_cases hk0 : k = 0
          · have := h5 (by omega)
            omega
          · omega
        · rw [hall, hsucc, h6]
    · rcases hcase with ⟨data, m, hd, hall, hsucc, hcalls, hsc, hlt⟩ | ⟨hall, hsucc, hcalls, hsc, hge⟩
      · exact ⟨[t], List.Sublist.refl _, by rw [hsucc]; simp⟩
      · exact ⟨[], by simp, by rw [hsucc]; simp⟩
    · intro p hp
      rcases hcase with ⟨data, m, hd, hall, hsucc, hcalls, hsc, hlt⟩ | ⟨hall, hsucc, hcalls, hsc, hge⟩
      · rw [hsucc, List.mem_append] at hp
        rcases hp with hp | hp
        · exact Or.inl hp
        · have hp2 : p = (t, data) := by simpa using hp
          subst hp2
          exact Or.inr ⟨rfl, m, hd⟩
      · rw [hsucc] at hp
        exact Or.inl hp

theorem forEachTarget_post (configs : Registry) (page : Renderer) (ts : List Target) (n : Nat)
    (st : RunState) (hinv : RunInv n st) :
    ∃ st2, forEachTarget configs page ts st = some st2 ∧ RunInv (n + ts.length) st2 ∧
      (∃ s, List.Sublist s ts ∧
        (successes st2.log).map Prod.fst = (successes st.log).map Prod.fst ++ s) ∧
      (∀ p, p ∈ successes st2.log → p ∈ successes st.log ∨
        (p.1 ∈ ts ∧ ∃ m, (scrapeEventData (page m p.1) (lookupConfig configs p.1.configName)
          p.1.eventName).2 = some p.2)) := by
  induction ts generalizing n st with
  | nil =>
    exact ⟨st, rfl, by simpa using hinv, ⟨[], by simp, by simp⟩, fun p hp => Or.inl hp⟩
  | cons t ts ih =>
    obtain ⟨st1, hrun1, hinv1, ⟨s1, hs1, he1⟩, hp1⟩ := processTarget_post configs page n st t hinv
    obtain ⟨st2, hrun2, hinv2, ⟨s2, hs2, he2⟩, hp2⟩ := ih (n + 1) st1 hinv1
    refine ⟨st2, ?_, ?_, ⟨s1 ++ s2, ?_, ?_⟩, ?_⟩
    · simp [forEachTarget, hrun1, hrun2]
    · rw [List.length_cons, show n + (ts.length + 1) = n + 1 + ts.length by omega]
      exact hinv2
    · exact List.Sublist.append hs1 hs2
    · rw [he2, he1, List.append_assoc]
    · intro p hp
      rcases hp2 p hp with h | ⟨hm, m, hd⟩
      · rcases hp1 p h with h0 | ⟨ht, m, hd⟩
        · exact Or.inl h0
        · refine Or.inr ⟨by simp [ht], m, ?_⟩
          rw [ht]
          exact hd
      · exact Or.inr ⟨by simp [hm], m, hd⟩

/-- The loop over the targets always comes to an end. -/
theorem forEachTarget_total (configs : Registry) (page : Renderer) (ts : List Target) :
    ∃ st, forEachTarget configs page ts RunState.initial = some st ∧ RunInv ts.length st ∧
      List.Sublist ((successes st.log).map Prod.fst) ts ∧ Provenance configs page ts st.log := by
  obtain ⟨st, hrun, hinv, ⟨s, hs, he⟩, hp⟩ :=
    forEachTarget_post configs page ts 0 RunState.initial RunInv.initial
  refine ⟨st, hrun, by simpa using hinv, ?_, ?_⟩
  · have : successes RunState.initial.log = [] := rfl
    rw [he, this]
    simpa using hs
  · intro p hp0
    rcases hp p hp0 with h | h
    · have : successes RunState.initial.log = [] := rfl
      rw [this] at h
      cases h
    · exact h

theorem flush_log (store : StoreOutcome) (st : RunState) :
    (flush store st).attempts = st.attempts ∧ (flush store st).allData = st.allData ∧
    (flush store st).calls = st.calls ∧
    failures (flush store st).log = failures st.log ∧
    scrapeCalls (flush store st).log = scrapeCalls st.log ∧
    successes (flush store st).log = successes st.log ∧
    storeWrites (flush store st).log =
      storeWrites st.log ++ (if st.allData = [] then [] else [st.allData]) ∧
    insertManyCalls (flush store st).log =
      insertManyCalls st.log ++
        (if st.allData = [] ∨ store = .connectFails then [] else [st.allData]) := by
  unfold flush
  by_cases h : st.allData = []
  · simp [h]
  · have hpos : st.allData.length > 0 := List.length_pos.mpr h
    rw [if_pos hpos]
    refine ⟨rfl, rfl, rfl, ?_, ?_, ?_, ?_, ?_⟩
    · cases store <;> simp [insertDataToDB, failures_append, failures, Event.isFailure]
    · cases store <;> simp [insertDataToDB, scrapeCalls_append, scrapeCalls, Event.scrapeTarget?]
    · cases store <;> simp [insertDataToDB, successes_append, successes, Event.success?]
    · simp only [storeWrites_append, if_neg h]
      cases store <;> simp [insertDataToDB, storeWrites, Event.storeWrite?]
    · simp only [insertManyCalls_append]
      cases store <;> simp [insertDataToDB, insertManyCalls, Event.insertMany?, h]

theorem forEachTarget_exhausted (configs : Registry) (page : Renderer) (ts : List Target)
    (st : RunState) (h : maxAttempts ≤ st.attempts) :
    ∃ st2, forEachTarget configs page ts st = some st2 ∧ st2.attempts = st.attempts ∧
      st2.calls = st.calls ∧ st2.allData = st.allData ∧
      scrapeCalls st2.log = scrapeCalls st.log ∧ successes st2.log = successes st.log := by
  induction ts generalizing st with
  | nil => exact ⟨st, rfl, rfl, rfl, rfl, rfl, rfl⟩
  | cons t ts ih =>
    by_cases hcfg : lookupConfig configs t.configName = .undefined
    · obtain ⟨st2, hrun, h1, h2, h3, h4, h5⟩ :=
        ih { st with log := st.log ++ [.noConfiguration t.configName] } h
      refine ⟨st2, ?_, h1, h2, h3, ?_, ?_⟩
      · simp [forEachTarget, processTarget_eq, hcfg, hrun]
      · rw [h4]
        simp [scrapeCalls_append, scrapeCalls, Event.scrapeTarget?]
      · rw [h5]
        simp [successes_append, successes, Event.success?]
    · obtain ⟨st2, hrun, h1, h2, h3, h4, h5⟩ := ih st h
      refine ⟨st2, ?_, h1, h2, h3, h4, h5⟩
      have hexit := retryLoop_exit page t (lookupConfig configs t.configName) maxAttempts st
        (by omega)
      simp [forEachTarget, processTarget_eq, hcfg, hexit, hrun]

theorem returnedCalls_append (configs : Registry) (page : Renderer) (a b : List Target)
    (n : Nat) :
    returnedCalls configs page n (a ++ b) =
      returnedCalls configs page n a ++ returnedCalls configs page (n + a.length) b := by
  induction a generalizing n with
  | nil => simp [returnedCalls]
  | cons t a ih =>
    rw [List.cons_append, returnedCalls, returnedCalls, ih, List.length_cons,
      show n + 1 + a.length = n + (a.length + 1) by omega]
    cases (scrapeEventData (page n t) (lookupConfig configs t.configName) t.eventName).2 <;> rfl

theorem hasConfig_eq_false (configs : Registry) (t : Target) :
    hasConfig configs t = false ↔ lookupConfig configs t.configName = .undefined := by
  unfold hasConfig
  cases lookupConfig configs t.configName <;> simp

/-- The retry loop keeps the log in step with the renderer: the returns in the
log are what the renderer gives back on the calls in the log. -/
theorem retryLoop_returned (configs : Registry) (page : Renderer) (t : Target) (fuel : Nat)
    (st st2 : RunState)
    (hrun : retryLoop page t (lookupConfig configs t.configName) fuel st = some st2)
    (hcalls : (scrapeCalls st.log).length = st.calls)
    (hret : successes st.log = returnedCalls configs page 0 (scrapeCalls st.log)) :
    (scrapeCalls st2.log).length = st2.calls ∧
    successes st2.log = returnedCalls configs page 0 (scrapeCalls st2.log) := by
  induction fuel generalizing st with
  | zero =>
    rw [retryLoop_zero] at hrun
    split at hrun
    · cases hrun
    · cases hrun
      exact ⟨hcalls, hret⟩
  | succ fuel ih =>
    rw [retryLoop_succ] at hrun
    by_cases h : st.attempts < maxAttempts
    · rw [if_pos h] at hrun
      obtain ⟨-, hc, hs, -, -⟩ :=
        scrapeEventData_log (page st.calls t) (lookupConfig configs t.configName) t.eventName
      cases hr : (scrapeEventData (page st.calls t) (lookupConfig configs t.configName)
          t.eventName).2 with
      | some data =>
        rw [hr] at hrun
        cases hrun
        have hsc : scrapeCalls (st.log ++ [Event.scrapeCall t] ++
            (scrapeEventData (page st.calls t) (lookupConfig configs t.configName)
              t.eventName).1 ++ [Event.scraped t data]) = scrapeCalls st.log ++ [t] := by
          simp only [scrapeCalls_append, hc]
          simp [scrapeCalls, Event.scrapeTarget?]
        have hsu : successes (st.log ++ [Event.scrapeCall t] ++
            (scrapeEventData (page st.calls t) (lookupConfig configs t.configName)
              t.eventName).1 ++ [Event.scraped t data]) = successes st.log ++ [(t, data)] := by
          simp only [successes_append, hs]
          simp [successes, Event.success?]
        refine ⟨?_, ?_⟩
        · simp only [hsc, List.length_append, List.length_singleton, hcalls]
        · simp only [hsc, hsu, returnedCalls_append, hret, Nat.zero_add, hcalls]
          simp [returnedCalls, hr]
      | none =>
        rw [hr] at hrun
        refine ih _ hrun ?_ ?_
        · simp only [scrapeCalls_append, hc, List.length_append, hcalls]
          split <;> simp [scrapeCalls, Event.scrapeTarget?]
        · have hsc : scrapeCalls (st.log ++ [Event.scrapeCall t] ++
              (scrapeEventData (page st.calls t) (lookupConfig configs t.configName)
                t.eventName).1 ++
              [Event.failed t,
                if st.attempts + 1 < maxAttempts then Event.wait backoffMs
                else Event.maxAttemptsReached]) = scrapeCalls st.log ++ [t] := by
            simp only [scrapeCalls_append, hc]
            split <;> simp [scrapeCalls, Event.scrapeTarget?]
          have hsu : successes (st.log ++ [Event.scrapeCall t] ++
              (scrapeEventData (page st.calls t) (lookupConfig configs t.configName)
                t.eventName).1 ++
              [Event.failed t,
                if st.attempts + 1 < maxAttempts then Event.wait backoffMs
                else Event.maxAttemptsReached]) = successes st.log := by
            simp only [successes_append, hs]
            split <;> simp [successes, Event.success?]
          simp only [hsc, hsu, returnedCalls_append, hret, Nat.zero_add, hcalls]
          simp [returnedCalls, hr]
    · rw [if_neg h] at hrun
      cases hrun
      exact ⟨hcalls, hret⟩

theorem forEachTarget_returned (configs : Registry) (page : Renderer) (ts : List Target)
    (st st2 : RunState) (hrun : forEachTarget configs page ts st = some st2)
    (hcalls : (scrapeCalls st.log).length = st.calls)
    (hret : successes st.log = returnedCalls configs page 0 (scrapeCalls st.log)) :
    (scrapeCalls st2.log).length = st2.calls ∧
    successes st2.log = returnedCalls configs page 0 (scrapeCalls st2.log) := by
  induction ts generalizing st with
  | nil =>
    cases hrun
    exact ⟨hcalls, hret⟩
  | cons t ts ih =>
    simp only [forEachTarget] at hrun
    cases hp : processTarget configs page st t with
    | none => simp [hp] at hrun
    | some st1 =>
      rw [hp] at hrun
      rw [processTarget_eq] at hp
      by_cases hcfg : lookupConfig configs t.configName = .undefined
      · rw [if_pos hcfg] at hp
        cases hp
        refine ih _ hrun ?_ ?_
        · simp only [scrapeCalls_append, List.length_append, hcalls]
          simp [scrapeCalls, Event.scrapeTarget?]
        · have h1 : scrapeCalls (st.log ++ [Event.noConfiguration t.configName]) =
              scrapeCalls st.log := by
            simp only [scrapeCalls_append]
            simp [scrapeCalls, Event.scrapeTarget?]
          have h2 : successes (st.log ++ [Event.noConfiguration t.configName]) =
              successes st.log := by
            simp only [successes_append]
            simp [successes, Event.success?]
          simp only [h1, h2]
          exact hret
      · rw [if_neg hcfg] at hp
        obtain ⟨h1, h2⟩ := retryLoop_returned configs page t maxAttempts st st1 hp hcalls hret
        exact ih st1 hrun h1 h2

/-- The targets whose extraction returned are the targets with a truthy
configuration, in submission order, up to the target on which the counter
reached `maxAttempts`. -/
theorem forEachTarget_progress (configs : Registry) (page : Renderer) (ts : List Target)
    (st : RunState) :
    ∃ st2, forEachTarget configs page ts st = some st2 ∧
      ∃ before later, ts = before ++ later ∧
        (successes st2.log).map Prod.fst =
          (successes st.log).map Prod.fst ++ before.filter (hasConfig configs) ∧
        (later ≠ [] → maxAttempts ≤ st2.attempts) := by
  induction ts generalizing st with
  | nil => exact ⟨st, rfl, [], [], rfl, by simp, fun h => absurd rfl h⟩
  | cons t ts ih =>
    by_cases hcfg : lookupConfig configs t.configName = .undefined
    · obtain ⟨st2, hrun, before, later, hsplit, hsucc, hlater⟩ :=
        ih { st with log := st.log ++ [.noConfiguration t.configName] }
      refine ⟨st2, ?_, t :: before, later, by rw [hsplit]; rfl, ?_, hlater⟩
      · simp [forEachTarget, processTarget_eq, hcfg, hrun]
      · rw [hsucc, List.filter_cons_of_neg (by
          rw [(hasConfig_eq_false configs t).mpr hcfg]
          simp)]
        simp [successes_append, successes, Event.success?]
    · obtain ⟨st1, hrun1, k, -, -, -, -, -, hcase⟩ :=
        retryLoop_post page t (lookupConfig configs t.configName) maxAttempts st (by omega)
      have hp : processTarget configs page st t = some st1 := by
        rw [processTarget_eq, if_neg hcfg]
        exact hrun1
      have hhas : hasConfig configs t = true := by
        cases hh : hasConfig configs t with
        | true => rfl
        | false => exact absurd ((hasConfig_eq_false configs t).mp hh) hcfg
      rcases hcase with ⟨data, m, -, -, hsucc1, -, -, -⟩ | ⟨-, hsucc1, -, -, hge⟩
      · obtain ⟨st2, hrun, before, later, hsplit, hsucc, hlater⟩ := ih st1
        refine ⟨st2, ?_, t :: before, later, by rw [hsplit]; rfl, ?_, hlater⟩
        · simp [forEachTarget, hp, hrun]
        · rw [hsucc, hsucc1, List.filter_cons_of_pos hhas]
          simp
      · obtain ⟨st2, hrun, hatt, -, -, -, hsucc⟩ :=
          forEachTarget_exhausted configs page ts st1 hge
        refine ⟨st2, ?_, [], t :: ts, rfl, ?_, fun _ => by omega⟩
        · simp [forEachTarget, hp, hrun]
        · rw [hsucc, hsucc1]
          simp

/-! ## The runner: batched write and attempt budget -/

/-- C4, as the code has it. In every run, whatever the renderer and the store
do: `insertDataToDB` is called at most once, exactly when the accumulator is
not empty, with the accumulator as payload; `insertMany` is called with that
payload exactly when the accumulator is not empty and the client has
connected. The accumulator is the concatenation, in call order, of the table
data that the renderer gives back on the calls made; the calls that returned
are on the targets with a truthy configuration, each once and in submission
order, up to the end of the list or to the target on which the failures reached
`maxAttempts`. -/
theorem run_batched_write (configs : Registry) (page : Renderer) (store : StoreOutcome)
    (targets : List Target) :
    ∃ st, run configs page store targets = some st ∧
      storeWrites st.log = (if st.allData = [] then [] else [st.allData]) ∧
      insertManyCalls st.log =
        (if st.allData = [] ∨ store = .connectFails then [] else [st.allData]) ∧
      st.allData = ((successes st.log).map Prod.snd).flatten ∧
      successes st.log = returnedCalls configs page 0 (scrapeCalls st.log) ∧
      (∃ before later, targets = before ++ later ∧
        (successes st.log).map Prod.fst = before.filter (hasConfig configs) ∧
        (later ≠ [] → failures st.log = maxAttempts)) ∧
      List.Sublist ((successes st.log).map Prod.fst) targets := by
  obtain ⟨st, hrun, hinv, hsub, -⟩ := forEachTarget_total configs page targets
  obtain ⟨h1, h2, -, -, -, h6, h7, h8⟩ := hinv
  obtain ⟨f1, f2, -, f4, f5, f6, f7, f8⟩ := flush_log store st
  obtain ⟨-, hret⟩ := forEachTarget_returned configs page targets RunState.initial st hrun
    rfl rfl
  obtain ⟨st2, hrun2, before, later, hsplit, hsucc, hlater⟩ :=
    forEachTarget_progress configs page targets RunState.initial
  rw [hrun] at hrun2
  cases hrun2
  refine ⟨flush store st, by simp [run, hrun], ?_, ?_, ?_, ?_, ?_, ?_⟩
  · rw [f7, f2, h7, List.nil_append]
  · rw [f8, f2, h8, List.nil_append]
  · rw [f2, f6]
    exact h6
  · rw [f6, f5]
    exact hret
  · refine ⟨before, later, hsplit, ?_, ?_⟩
    · rw [f6, hsucc]
      have : successes RunState.initial.log = [] := rfl
      rw [this]
      rfl
    · intro hne
      have := hlater hne
      rw [f4, h1]
      omega
  · rw [f6]
    exact hsub

/-- C10. In every run the caught failures number the value of the counter
`attempts`, at most `maxAttempts` (5); from a point between two targets where
the failures have reached `maxAttempts`, the remaining targets are given no
call and add no record; and the run makes at most
`targets.length + maxAttempts - 1` calls of `scrapeEventData`. -/
theorem run_attempt_budget (configs : Registry) (page : Renderer) (store : StoreOutcome)
    (targets : List Target) :
    ∃ st, run configs page store targets = some st ∧
      maxAttempts = 5 ∧
      failures st.log = st.attempts ∧
      failures st.log ≤ maxAttempts ∧
      (scrapeCalls st.log).length = st.calls ∧
      (scrapeCalls st.log).length ≤ targets.length + maxAttempts - 1 ∧
      (∀ before later mid, targets = before ++ later →
        forEachTarget configs page before RunState.initial = some mid →
        failures mid.log = maxAttempts →
        ∃ fin, forEachTarget configs page later mid = some fin ∧
          scrapeCalls fin.log = scrapeCalls mid.log ∧ successes fin.log = successes mid.log ∧
          fin.allData = mid.allData) := by
  obtain ⟨st, hrun, hinv, -, -⟩ := forEachTarget_total configs page targets
  obtain ⟨h1, h2, h3, h4, h5, -, -, -⟩ := hinv
  obtain ⟨f1, -, f3, f4, f5, -, -, -⟩ := flush_log store st
  refine ⟨flush store st, by simp [run, hrun], rfl, ?_, ?_, ?_, ?_, ?_⟩
  · rw [f4, f1]
    exact h1
  · rw [f4, h1]
    exact h2
  · rw [f5, f3]
    exact h3
  · rw [f5, h3]
    by_cases hmax : st.attempts = maxAttempts
    · have := h5 hmax
      omega
    · have : maxAttempts = 5 := rfl
      omega
  · intro before later mid _ hmid hfail
    obtain ⟨mid2, hrun2, hinv2, -, -⟩ := forEachTarget_total configs page before
    rw [hmid] at hrun2
    cases hrun2
    obtain ⟨fin, hfin, -, -, g3, g4, g5⟩ :=
      forEachTarget_exhausted configs page later mid (by rw [← hinv2.1, hfail])
    exact ⟨fin, hfin, g4, g5, g3⟩

/-- A target whose configuration name is neither registered nor the name of a
member of `Object.prototype` is skipped: no call, no record, the counter as it
was, and the loop goes on with the next target. -/
theorem processTarget_skips_unregistered (configs : Registry) (page : Renderer)
    (st : RunState) (t : Target) (rest : List Target)
    (hreg : getOwn? t.configName configs = none)
    (hproto : t.configName ∉ objectPrototypeKeys) :
    processTarget configs page st t =
      some { st with log := st.log ++ [.noConfiguration t.configName] } ∧
    forEachTarget configs page (t :: rest) st =
      forEachTarget configs page rest
        { st with log := st.log ++ [.noConfiguration t.configName] } := by
  have hcfg : lookupConfig configs t.configName = .undefined := by
    simp [lookupConfig, hreg, hproto]
  have hp : processTarget configs page st t =
      some { st with log := st.log ++ [.noConfiguration t.configName] } := by
    rw [processTarget_eq, if_pos hcfg]
  exact ⟨hp, by simp [forEachTarget, hp]⟩

/-! ## Concrete runs -/

theorem lookupConfig_madrid :
    lookupConfig exampleRegistry "valorantMastersMadrid" = .config statsConfig := by decide

theorem lookupConfig_champions :
    lookupConfig exampleRegistry "valorantChampion2023" = .config statsConfig := by decide

theorem lookupConfig_constructor :
    lookupConfig exampleRegistry "constructor" = .inherited "constructor" := by decide

theorem aceRecord_champions :
    evaluateCallback statsConfig.mappings "Champions 2023" ["Player", "K"] [["Ace", "20"]] =
      [[("Event", .str "Champions 2023"), ("Player", .str "Ace"), ("Kills", .str "20")]] := by
  decide

theorem aceRecord_madrid :
    evaluateCallback statsConfig.mappings "Masters Madrid" ["Player", "K"] [["Ace", "20"]] =
      [[("Event", .str "Masters Madrid"), ("Player", .str "Ace"), ("Kills", .str "20")]] := by
  decide

/-- C4 fails as stated for `insertMany`: when the client cannot connect, a run
with a non-empty accumulator calls `insertDataToDB` once and `insertMany` not
at all. -/
theorem run_store_unreachable :
    (run exampleRegistry alwaysRenders .connectFails [madrid]).map
        (fun st => (st.allData, storeWrites st.log, insertManyCalls st.log)) =
      some
        ([[("Event", .str "Masters Madrid"), ("Player", .str "Ace"), ("Kills", .str "20")]],
         [[[("Event", .str "Masters Madrid"), ("Player", .str "Ace"), ("Kills", .str "20")]]],
         []) := by
  simp [run, forEachTarget, processTarget_eq, madrid, lookupConfig_madrid,
    retryLoop_succ, retryLoop_zero, maxAttempts, RunState.initial, alwaysRenders,
    scrapeEventData, flush, ConfigVal.mappings, aceRecord_madrid, insertDataToDB,
    storeWrites, Event.storeWrite?, insertManyCalls, Event.insertMany?]

/-- A run in which both pages render and the store accepts the batch: one call
of `insertMany`, with the records of the two targets in submission order. -/
theorem run_two_targets_one_batch :
    (run exampleRegistry alwaysRenders .inserted [madrid, champions]).map
        (fun st => (scrapeCalls st.log, storeWrites st.log, insertManyCalls st.log)) =
      some
        ([madrid, champions],
         [[[("Event", .str "Masters Madrid"), ("Player", .str "Ace"), ("Kills", .str "20")],
           [("Event", .str "Champions 2023"), ("Player", .str "Ace"), ("Kills", .str "20")]]],
         [[[("Event", .str "Masters Madrid"), ("Player", .str "Ace"), ("Kills", .str "20")],
           [("Event", .str "Champions 2023"), ("Player", .str "Ace"), ("Kills", .str "20")]]]) := by
  simp [run, forEachTarget, processTarget_eq, madrid, champions, lookupConfig_madrid,
    lookupConfig_champions, retryLoop_succ, retryLoop_zero, maxAttempts, RunState.initial,
    alwaysRenders, scrapeEventData, flush, ConfigVal.mappings, aceRecord_madrid,
    aceRecord_champions, insertDataToDB, scrapeCalls, Event.scrapeTarget?, storeWrites,
    Event.storeWrite?, insertManyCalls, Event.insertMany?]

/-- C2, on the code. The target `madrid` fails in navigation on every call and
uses up the five attempts of the run; the target `champions`, submitted after
it, is registered and its page renders, yet `scrapeEventData` is never called
on it and nothing is stored. Submitted alone it is scraped on the first call. -/
theorem run_shared_counter_starves_next_target :
    lookupConfig exampleRegistry champions.configName = .config statsConfig ∧
    (run exampleRegistry madridUnreachable .inserted [madrid, champions]).map
        (fun st => (scrapeCalls st.log, st.allData, storeWrites st.log)) =
      some ([madrid, madrid, madrid, madrid, madrid], [], []) ∧
    (run exampleRegistry madridUnreachable .inserted [champions]).map
        (fun st => (scrapeCalls st.log, st.allData)) =
      some ([champions],
        [[("Event", .str "Champions 2023"), ("Player", .str "Ace"), ("Kills", .str "20")]]) := by
  refine ⟨lookupConfig_champions, ?_, ?_⟩
  · simp [run, forEachTarget, processTarget_eq, madrid, champions, lookupConfig_madrid,
      lookupConfig_champions, retryLoop_succ, retryLoop_zero, maxAttempts, RunState.initial,
      madridUnreachable, scrapeEventData, flush, scrapeCalls, Event.scrapeTarget?, storeWrites,
      Event.storeWrite?]
  · simp [run, forEachTarget, processTarget_eq, madrid, champions, lookupConfig_madrid,
      lookupConfig_champions, retryLoop_succ, retryLoop_zero, maxAttempts, RunState.initial,
      madridUnreachable, scrapeEventData, flush, scrapeCalls, Event.scrapeTarget?, storeWrites,
      Event.storeWrite?, ConfigVal.mappings, aceRecord_champions, insertDataToDB]

/-- C3, on the code. The target `madrid` fails twice before it is scraped; the
target `champions`, whose extraction fails on every call, is then attempted
three times, not five, with two waits between its attempts. -/
theorem run_always_failing_target_gets_remaining_attempts :
    (∀ n, (scrapeEventData (championsNeverReady n champions)
      (lookupConfig exampleRegistry champions.configName) champions.eventName).2 = none) ∧
    (run exampleRegistry championsNeverReady .inserted [madrid, champions]).map
        (fun st => (st.attempts, scrapeCalls st.log, waits st.log, st.log)) =
      some (5, [madrid, madrid, madrid, champions, champions, champions],
        [5000, 5000, 5000, 5000],
        [.scrapeCall madrid, .sessionOpened, .failed madrid, .wait 5000,
         .scrapeCall madrid, .sessionOpened, .failed madrid, .wait 5000,
         .scrapeCall madrid, .sessionOpened, .sessionClosed,
         .scraped madrid
           [[("Event", .str "Masters Madrid"), ("Player", .str "Ace"), ("Kills", .str "20")]],
         .scrapeCall champions, .sessionOpened, .failed champions, .wait 5000,
         .scrapeCall champions, .sessionOpened, .failed champions, .wait 5000,
         .scrapeCall champions, .sessionOpened, .failed champions, .maxAttemptsReached,
         .insertDataToDB
           [[("Event", .str "Masters Madrid"), ("Player", .str "Ace"), ("Kills", .str "20")]],
         .insertMany
           [[("Event", .str "Masters Madrid"), ("Player", .str "Ace"), ("Kills", .str "20")]],
         .clientClosed]) := by
  refine ⟨fun n => by simp [championsNeverReady, champions, scrapeEventData], ?_⟩
  simp [run, forEachTarget, processTarget_eq, madrid, champions, lookupConfig_madrid,
    lookupConfig_champions, retryLoop_succ, retryLoop_zero, maxAttempts, backoffMs,
    RunState.initial, championsNeverReady, scrapeEventData, flush, ConfigVal.mappings,
    aceRecord_madrid, insertDataToDB, scrapeCalls, Event.scrapeTarget?, waits, Event.wait?]

/-- C5, on the code. The name `constructor` is not registered, yet the read
`this.configs["constructor"]` finds the member inherited from
`Object.prototype`, which is truthy: the target is not skipped,
`scrapeEventData` is called on it five times and the counter goes from 0 to 5. -/
theorem run_unregistered_inherited_name_is_attempted :
    getOwn? unregistered.configName exampleRegistry = none ∧
    (run exampleRegistry selectorNeverFound .inserted [unregistered]).map
        (fun st => (scrapeCalls st.log, st.attempts, st.allData)) =
      some ([unregistered, unregistered, unregistered, unregistered, unregistered], 5, []) := by
  refine ⟨by decide, ?_⟩
  simp [run, forEachTarget, processTarget_eq, unregistered, lookupConfig_constructor,
    retryLoop_succ, retryLoop_zero, maxAttempts, RunState.initial, selectorNeverFound,
    scrapeEventData, flush, scrapeCalls, Event.scrapeTarget?]

/-- C9, on the code. When the first call on `madrid` fails while waiting for
the table and the second renders, the run ends with two sessions opened and one
closed: the browser of the failed call is never closed. -/
theorem run_leaves_session_open_after_failure :
    (run exampleRegistry slowFirstLoad .inserted [madrid]).map
        (fun st => (sessionsOpened st.log, sessionsClosed st.log, st.log)) =
      some (2, 1,
        [.scrapeCall madrid, .sessionOpened, .failed madrid, .wait 5000,
         .scrapeCall madrid, .sessionOpened, .sessionClosed,
         .scraped madrid
           [[("Event", .str "Masters Madrid"), ("Player", .str "Ace"), ("Kills", .str "20")]],
         .insertDataToDB
           [[("Event", .str "Masters Madrid"), ("Player", .str "Ace"), ("Kills", .str "20")]],
         .insertMany
           [[("Event", .str "Masters Madrid"), ("Player", .str "Ace"), ("Kills", .str "20")]],
         .clientClosed]) := by
  simp [run, forEachTarget, processTarget_eq, madrid, lookupConfig_madrid,
    retryLoop_succ, retryLoop_zero, maxAttempts, backoffMs, RunState.initial, slowFirstLoad,
    scrapeEventData, flush, ConfigVal.mappings, aceRecord_madrid, insertDataToDB,
    sessionsOpened, sessionsClosed]

end Master
